import Mathlib

/-!
Verification of the HATSKit builder (`hatskit.py`) against its
natural-language specification.

The development shallowly embeds the pure core of the script:

* `compute_content_hash` (build identity, SHA-1 over the selection),
* `get_release_asset_info` (cache-aware release resolution with TTL,
  conditional revalidation and rate-limit backoff),
* the changelog diff inside `run_builder`,
* the `find_and_copy` / `find_and_rename` archive search steps of
  `process_component`,
* the header construction of `download_file`,
* the per-component resolution pass of `run_builder`.

Machine integers are modelled as `Nat` (with explicit `% 2^32` where the
SHA-1 rounds overflow) and timestamps as `Int` seconds.  Network I/O is
modelled by an explicit list of responses consumed one per request;
filesystem writes are modelled as returned values.  Python `dict`s are
modelled as association lists with unique keys; `None`-able fields as
`Option`.
-/

set_option linter.unusedVariables false
set_option maxRecDepth 4000

/-! ### Code-point string order

Python compares strings lexicographically by Unicode code point
(`sorted(user_choices.keys())` in `compute_content_hash`,
`sorted(...items())` in the changelog).  `lexLe` is that order on the
underlying character lists, `strLe` its lift to `String`. -/

def lexLe : List Char → List Char → Bool
  | [], _ => true
  | _ :: _, [] => false
  | a :: as, b :: bs =>
    if a = b then lexLe as bs
    else decide (a < b)

def strLe (a b : String) : Prop := lexLe a.data b.data = true

instance : DecidableRel strLe := fun _ _ => inferInstanceAs (Decidable (_ = true))

theorem lexLe_total (a b : List Char) : lexLe a b = true ∨ lexLe b a = true := by
  induction a generalizing b with
  | nil => left; rfl
  | cons x xs ih =>
    cases b with
    | nil => right; rfl
    | cons y ys =>
      by_cases hxy : x = y
      · subst hxy
        rcases ih ys with h | h
        · left; simp [lexLe, h]
        · right; simp [lexLe, h]
      · rcases lt_trichotomy x y with h | h | h
        · left; simp [lexLe, hxy, h]
        · exact absurd h hxy
        · right; simp [lexLe, Ne.symm hxy, h]

theorem lexLe_trans {a b c : List Char} (h1 : lexLe a b = true) (h2 : lexLe b c = true) :
    lexLe a c = true := by
  induction a generalizing b c with
  | nil => rfl
  | cons x xs ih =>
    cases b with
    | nil => simp [lexLe] at h1
    | cons y ys =>
      cases c with
      | nil => simp [lexLe] at h2
      | cons z zs =>
        by_cases hxy : x = y <;> by_cases hyz : y = z
        · subst hxy; subst hyz
          simp only [lexLe, if_pos rfl] at h1 h2 ⊢
          exact ih h1 h2
        · subst hxy
          simp only [lexLe, if_pos rfl] at h1
          simpa [lexLe, hyz] using h2
        · subst hyz
          simpa [lexLe, hxy] using h1
        · simp only [lexLe, if_neg hxy, decide_eq_true_eq] at h1
          simp only [lexLe, if_neg hyz, decide_eq_true_eq] at h2
          have hxz : x < z := lt_trans h1 h2
          simp [lexLe, ne_of_lt hxz, hxz]

theorem lexLe_antisymm {a b : List Char} (h1 : lexLe a b = true) (h2 : lexLe b a = true) :
    a = b := by
  induction a generalizing b with
  | nil => cases b with
    | nil => rfl
    | cons y ys => simp [lexLe] at h2
  | cons x xs ih =>
    cases b with
    | nil => simp [lexLe] at h1
    | cons y ys =>
      by_cases hxy : x = y
      · subst hxy
        simp only [lexLe, if_pos rfl] at h1 h2
        rw [ih h1 h2]
      · simp only [lexLe, if_neg hxy, decide_eq_true_eq] at h1
        simp only [lexLe, if_neg (Ne.symm hxy), decide_eq_true_eq] at h2
        exact absurd (lt_trans h1 h2) (lt_irrefl x)

instance : IsTotal String strLe := ⟨fun a b => lexLe_total a.data b.data⟩

instance : IsTrans String strLe := ⟨fun _ _ _ => lexLe_trans⟩

instance : IsAntisymm String strLe := ⟨fun a b h1 h2 => String.ext (lexLe_antisymm h1 h2)⟩

/-- Model of Python `sorted` on a list of strings: code-point lexicographic. -/
def sortStrings (l : List String) : List String := List.insertionSort strLe l

theorem sortStrings_perm (l : List String) : (sortStrings l).Perm l :=
  List.perm_insertionSort strLe l

theorem sortStrings_sorted (l : List String) : List.Sorted strLe (sortStrings l) :=
  List.sorted_insertionSort strLe l

/-- Two permutation-equivalent string lists sort to the same list. -/
theorem sortStrings_congr_perm {l1 l2 : List String} (h : l1.Perm l2) :
    sortStrings l1 = sortStrings l2 :=
  List.eq_of_perm_of_sorted
    (((sortStrings_perm l1).trans h).trans (sortStrings_perm l2).symm)
    (sortStrings_sorted l1) (sortStrings_sorted l2)

/-! ### UTF-8 and SHA-1

`compute_content_hash` feeds `hashlib.sha1` with the UTF-8 encoding of
`f"{comp_id}:{version}"` for each sorted id and returns
`hexdigest()[:7]`.  The hash is reimplemented here bit-faithfully over
`Nat` with explicit reduction modulo `2^32`. -/

/-- UTF-8 encoding of one Unicode scalar value (as byte values). -/
def utf8Enc (c : Char) : List Nat :=
  let n := c.toNat
  if n < 0x80 then [n]
  else if n < 0x800 then
    [0xC0 ||| (n >>> 6), 0x80 ||| (n &&& 0x3F)]
  else if n < 0x10000 then
    [0xE0 ||| (n >>> 12), 0x80 ||| ((n >>> 6) &&& 0x3F), 0x80 ||| (n &&& 0x3F)]
  else
    [0xF0 ||| (n >>> 18), 0x80 ||| ((n >>> 12) &&& 0x3F),
     0x80 ||| ((n >>> 6) &&& 0x3F), 0x80 ||| (n &&& 0x3F)]

/-- UTF-8 bytes of a string (Python `s.encode('utf-8')`). -/
def strBytes (s : String) : List Nat := s.data.flatMap utf8Enc

/-- Rotate a 32-bit word left by `k`. -/
def rotl (k n : Nat) : Nat := ((n <<< k) ||| (n >>> (32 - k))) % 4294967296

/-- Big-endian 8-byte encoding of a 64-bit value. -/
def be64 (n : Nat) : List Nat :=
  [(n >>> 56) &&& 255, (n >>> 48) &&& 255, (n >>> 40) &&& 255, (n >>> 32) &&& 255,
   (n >>> 24) &&& 255, (n >>> 16) &&& 255, (n >>> 8) &&& 255, n &&& 255]

/-- SHA-1 message padding: append `0x80`, zero bytes to 56 mod 64, then the
big-endian 64-bit bit length. -/
def sha1Pad (msg : List Nat) : List Nat :=
  let len := msg.length
  let k := (55 + 64 - (len % 64)) % 64
  msg ++ [0x80] ++ List.replicate k 0 ++ be64 ((len * 8) % 18446744073709551616)

/-- Big-endian 32-bit words of a byte list (length a multiple of 4 after padding). -/
def toWords : List Nat → List Nat
  | b0 :: b1 :: b2 :: b3 :: rest => (((b0 * 256 + b1) * 256 + b2) * 256 + b3) :: toWords rest
  | _ => []

/-- Split a word list into 16-word blocks (one block per 64-byte chunk). -/
def chunkWords : List Nat → List (List Nat)
  | w0 :: w1 :: w2 :: w3 :: w4 :: w5 :: w6 :: w7 ::
    w8 :: w9 :: w10 :: w11 :: w12 :: w13 :: w14 :: w15 :: rest =>
      [w0, w1, w2, w3, w4, w5, w6, w7, w8, w9, w10, w11, w12, w13, w14, w15] ::
        chunkWords rest
  | _ => []

/-- Extend the 16 chunk words to 80 schedule words. -/
def extendWords (w : Array Nat) : Array Nat :=
  (List.range 64).foldl
    (fun w _ =>
      w.push (rotl 1 ((w.getD (w.size - 3) 0) ^^^ (w.getD (w.size - 8) 0) ^^^
                      (w.getD (w.size - 14) 0) ^^^ (w.getD (w.size - 16) 0))))
    w

/-- One SHA-1 round: state is `(a, b, c, d, e, round index)`. -/
def sha1Round (st : Nat × Nat × Nat × Nat × Nat × Nat) (w : Nat) :
    Nat × Nat × Nat × Nat × Nat × Nat :=
  let (a, b, c, d, e, i) := st
  let f :=
    if i < 20 then (b &&& c) ||| ((b ^^^ 4294967295) &&& d)
    else if i < 40 then b ^^^ c ^^^ d
    else if i < 60 then (b &&& c) ||| (b &&& d) ||| (c &&& d)
    else b ^^^ c ^^^ d
  let k :=
    if i < 20 then 0x5A827999
    else if i < 40 then 0x6ED9EBA1
    else if i < 60 then 0x8F1BBCDC
    else 0xCA62C1D6
  let temp := (rotl 5 a + f + e + k + w) % 4294967296
  (temp, a, rotl 30 b, c, d, i + 1)

/-- Process one 16-word chunk, updating the five hash words. -/
def sha1Chunk (h : Nat × Nat × Nat × Nat × Nat) (chunk : List Nat) :
    Nat × Nat × Nat × Nat × Nat :=
  let (h0, h1, h2, h3, h4) := h
  let w := extendWords chunk.toArray
  let (a, b, c, d, e, _) := w.toList.foldl sha1Round (h0, h1, h2, h3, h4, 0)
  ((h0 + a) % 4294967296, (h1 + b) % 4294967296, (h2 + c) % 4294967296,
   (h3 + d) % 4294967296, (h4 + e) % 4294967296)

/-- SHA-1 digest of a byte list as five 32-bit words. -/
def sha1Words (msg : List Nat) : Nat × Nat × Nat × Nat × Nat :=
  (chunkWords (toWords (sha1Pad msg))).foldl sha1Chunk
    (0x67452301, 0xEFCDAB89, 0x98BADCFE, 0x10325476, 0xC3D2E1F0)

/-- Lowercase hex digit. -/
def hexDigit (n : Nat) : Char :=
  (("0123456789abcdef".data).getD n 'x')

/-- Eight lowercase hex digits of a 32-bit word, most significant first. -/
def hexWord (n : Nat) : List Char :=
  (List.range 8).map (fun i => hexDigit ((n >>> ((7 - i) * 4)) &&& 15))

/-- Model of `hashlib.sha1(...).hexdigest()` on the UTF-8 bytes of `s`. -/
def sha1Hex (s : String) : String :=
  let (h0, h1, h2, h3, h4) := sha1Words (strBytes s)
  String.mk (hexWord h0 ++ hexWord h1 ++ hexWord h2 ++ hexWord h3 ++ hexWord h4)

example : sha1Hex "abc" = "a9993e364706816aba3e25717850c26c9cd0d89d" := by decide

example : sha1Hex "" = "da39a3ee5e6b4b0d3255bfef95601890afd80709" := by decide

/-! ### Data model

`AssetInfo` mirrors the dict written at `hatskit.py` lines 269-274:
`{url, version, timestamp, etag}`.  `timestamp` is `Option Int` seconds:
`none` models a cache entry whose ISO string fails to parse (the
`except (ValueError, TypeError)` branch); entries written by the code
always carry a valid timestamp.  `etag : Option String` models presence
of the `"etag"` key (`none` = key absent in a loaded cache entry). -/

structure AssetInfo where
  url : String
  version : String
  timestamp : Option Int
  etag : Option String
deriving Repr, DecidableEq

/-- The fields of a component dict that the resolver, hash and build loop
read (`repo`, `tag`, `asset_pattern`, `source_type`, `name`,
`asset_info`). -/
structure Component where
  name : String
  repo : String
  tag : Option String
  assetPattern : String
  sourceType : Option String
  assetInfo : Option AssetInfo
deriving Repr, DecidableEq

/-- A selection / component catalog: a Python dict keyed by component id,
modelled as an association list with unique keys. -/
abbrev Selection := List (String × Component)

/-- Python `comp.get('asset_info', {}).get('version', 'N/A')`. -/
def versionOf (c : Component) : String :=
  match c.assetInfo with
  | some a => a.version
  | none => "N/A"

/-- Version of the component stored under `id` (`user_choices[comp_id]`;
the id always comes from the dict's own keys, so the `none` branch is
unreachable and its value immaterial). -/
def versionIn (sel : Selection) (id : String) : String :=
  match sel.lookup id with
  | some c => versionOf c
  | none => "N/A"

/-- The `(id, version)` pairs visited by `compute_content_hash`:
`for comp_id in sorted(user_choices.keys())`. -/
def hashPairs (sel : Selection) : List (String × String) :=
  (sortStrings (sel.map Prod.fst)).map (fun id => (id, versionIn sel id))

/-- The full byte stream fed to the SHA-1 hasher: the concatenation of
`f"{comp_id}:{version}"` over the sorted ids (incremental
`hasher.update` calls hash exactly the concatenation). -/
def hashInput (sel : Selection) : String :=
  String.join ((hashPairs sel).map (fun p => p.1 ++ ":" ++ p.2))

/-- Model of `compute_content_hash` (hatskit.py lines 298-304):
`hashlib.sha1` over the sorted `(id, version)` serialization,
`hexdigest()[:7]`. -/
def compute_content_hash (sel : Selection) : String :=
  (sha1Hex (hashInput sel)).take 7

/-- Association-list lookup is invariant under permutation when keys are
unique. -/
theorem lookup_eq_of_perm {β : Type} {l1 l2 : List (String × β)} (h : l1.Perm l2) :
    (l1.map Prod.fst).Nodup → ∀ k, l1.lookup k = l2.lookup k := by
  induction h with
  | nil => intro _ k; rfl
  | cons x h ih =>
    intro nd k
    simp only [List.map_cons, List.nodup_cons] at nd
    show List.lookup k (x :: _) = List.lookup k (x :: _)
    simp only [List.lookup]
    cases k == x.1 with
    | true => rfl
    | false => exact ih nd.2 k
  | swap x y l =>
    intro nd k
    simp only [List.map_cons, List.nodup_cons, List.mem_cons] at nd
    have hxy : y.1 ≠ x.1 := fun e => nd.1 (Or.inl e)
    show List.lookup k (y :: x :: l) = List.lookup k (x :: y :: l)
    simp only [List.lookup]
    cases h1 : k == y.1 with
    | true =>
      cases h2 : k == x.1 with
      | true =>
        exact absurd (((beq_iff_eq ..).mp h1).symm.trans ((beq_iff_eq ..).mp h2)) hxy
      | false => rfl
    | false =>
      cases h2 : k == x.1 with
      | true => rfl
      | false => rfl
  | trans h1 h2 ih1 ih2 =>
    intro nd k
    have nd2 := ((h1.map Prod.fst).nodup_iff).mp nd
    exact (ih1 nd k).trans (ih2 nd2 k)

/-- The ids visited by the hash are exactly the sorted selection keys. -/
theorem hashPairs_keys (sel : Selection) :
    (hashPairs sel).map Prod.fst = sortStrings (sel.map Prod.fst) := by
  simp [hashPairs, List.map_map, Function.comp_def]

/-- C1: `compute_content_hash` returns the first 7 hex characters of the
SHA-1 digest of the concatenation of `"{id}:{version}"` for each selected
id visited in code-point lexicographic order of id; the result is
deterministic and invariant under any permutation of the selection's
iteration order. -/
theorem content_hash_lex_order_and_perm_invariant (s1 s2 : Selection)
    (hperm : s1.Perm s2) (hnd : (s1.map Prod.fst).Nodup) :
    compute_content_hash s1 = compute_content_hash s2 ∧
    compute_content_hash s1 =
      (sha1Hex (String.join ((hashPairs s1).map (fun p => p.1 ++ ":" ++ p.2)))).take 7 ∧
    List.Sorted strLe ((hashPairs s1).map Prod.fst) ∧
    ((hashPairs s1).map Prod.fst).Perm (s1.map Prod.fst) := by
  refine ⟨?_, rfl, ?_, ?_⟩
  · have hkeys : sortStrings (s1.map Prod.fst) = sortStrings (s2.map Prod.fst) :=
      sortStrings_congr_perm (hperm.map Prod.fst)
    have hver : ∀ id, versionIn s1 id = versionIn s2 id := by
      intro id
      unfold versionIn
      rw [lookup_eq_of_perm hperm hnd id]
    have : hashPairs s1 = hashPairs s2 := by
      unfold hashPairs
      rw [hkeys]
      exact List.map_congr_left (fun id _ => by rw [hver id])
    unfold compute_content_hash hashInput
    rw [this]
  · rw [hashPairs_keys]; exact sortStrings_sorted _
  · rw [hashPairs_keys]; exact sortStrings_perm _

/-- Witness for C1 at a concrete two-component selection presented in two
iteration orders. -/
theorem content_hash_lex_order_and_perm_invariant_witness :
    ([("b", Component.mk "B" "r/b" none "*.zip" none none),
      ("a", Component.mk "A" "r/a" none "*.zip" none
         (some (AssetInfo.mk "u" "1.0" (some 0) (some ""))))] : Selection).Perm
      [("a", Component.mk "A" "r/a" none "*.zip" none
         (some (AssetInfo.mk "u" "1.0" (some 0) (some "")))),
       ("b", Component.mk "B" "r/b" none "*.zip" none none)] ∧
    (([("b", Component.mk "B" "r/b" none "*.zip" none none),
       ("a", Component.mk "A" "r/a" none "*.zip" none
          (some (AssetInfo.mk "u" "1.0" (some 0) (some ""))))] : Selection).map
        Prod.fst).Nodup ∧
    compute_content_hash
        [("b", Component.mk "B" "r/b" none "*.zip" none none),
         ("a", Component.mk "A" "r/a" none "*.zip" none
            (some (AssetInfo.mk "u" "1.0" (some 0) (some ""))))] =
      compute_content_hash
        [("a", Component.mk "A" "r/a" none "*.zip" none
            (some (AssetInfo.mk "u" "1.0" (some 0) (some "")))),
         ("b", Component.mk "B" "r/b" none "*.zip" none none)] :=
  ⟨by decide, by decide,
   (content_hash_lex_order_and_perm_invariant _ _ (by decide) (by decide)).1⟩

/-- C8 counterexample: two selections that differ in membership (`"b"` is
selected only in the second) yet have equal content hashes, because the
serialization concatenates `"{id}:{version}"` pairs with no separator:
`{a: "1b:2"}` and `{a: "1", b: "2"}` both serialize to `"a:1b:2"`. -/
theorem content_hash_collision_counterexample :
    ("b" ∈ (([("a", Component.mk "A" "r" none "p" none
                 (some (AssetInfo.mk "u" "1" (some 0) (some "")))),
              ("b", Component.mk "B" "r" none "p" none
                 (some (AssetInfo.mk "u" "2" (some 0) (some ""))))] : Selection).map
               Prod.fst) ∧
     "b" ∉ (([("a", Component.mk "A" "r" none "p" none
                 (some (AssetInfo.mk "u" "1b:2" (some 0) (some ""))))] : Selection).map
               Prod.fst)) ∧
    compute_content_hash
        [("a", Component.mk "A" "r" none "p" none
            (some (AssetInfo.mk "u" "1b:2" (some 0) (some ""))))] =
      compute_content_hash
        [("a", Component.mk "A" "r" none "p" none
            (some (AssetInfo.mk "u" "1" (some 0) (some "")))),
         ("b", Component.mk "B" "r" none "p" none
            (some (AssetInfo.mk "u" "2" (some 0) (some ""))))] := by
  refine ⟨⟨by decide, by decide⟩, ?_⟩
  show (sha1Hex (hashInput _)).take 7 = (sha1Hex (hashInput _)).take 7
  have h : hashInput
      [("a", Component.mk "A" "r" none "p" none
          (some (AssetInfo.mk "u" "1b:2" (some 0) (some ""))))] =
    hashInput
      [("a", Component.mk "A" "r" none "p" none
          (some (AssetInfo.mk "u" "1" (some 0) (some "")))),
       ("b", Component.mk "B" "r" none "p" none
          (some (AssetInfo.mk "u" "2" (some 0) (some ""))))] := by decide
  rw [h]

/-- C8 amended: the content hash is a function of the selection's
membership and version assignment — two selections with the same key
multiset and the same version for every selected id hash identically, so
`ContentHash(S1) ≠ ContentHash(S2)` implies `S1`, `S2` differ in
membership or in some version string.  The stated converse fails (see the
counterexample): the unseparated serialization lets distinct selections
collide. -/
theorem content_hash_determined_by_membership_and_versions (s1 s2 : Selection)
    (hkeys : (s1.map Prod.fst).Perm (s2.map Prod.fst))
    (hver : ∀ k ∈ s1.map Prod.fst,
      (s1.lookup k).map versionOf = (s2.lookup k).map versionOf) :
    compute_content_hash s1 = compute_content_hash s2 := by
  have hsort : sortStrings (s1.map Prod.fst) = sortStrings (s2.map Prod.fst) :=
    sortStrings_congr_perm hkeys
  have hpairs : hashPairs s1 = hashPairs s2 := by
    unfold hashPairs
    rw [hsort]
    refine List.map_congr_left (fun id hid => ?_)
    have hmem : id ∈ s1.map Prod.fst :=
      ((sortStrings_perm (s2.map Prod.fst)).trans hkeys.symm).mem_iff.mp hid
    have h := hver id hmem
    have hv : versionIn s1 id = versionIn s2 id := by
      unfold versionIn
      cases h1 : s1.lookup id with
      | none =>
        cases h2 : s2.lookup id with
        | none => rfl
        | some c => rw [h1, h2] at h; simp at h
      | some c =>
        cases h2 : s2.lookup id with
        | none => rw [h1, h2] at h; simp at h
        | some c' =>
          rw [h1, h2] at h
          show versionOf c = versionOf c'
          exact Option.some.inj (by simpa using h)
    rw [hv]
  show (sha1Hex (hashInput s1)).take 7 = (sha1Hex (hashInput s2)).take 7
  unfold hashInput
  rw [hpairs]

/-- Witness for the amended C8 at a concrete pair of selections with equal
membership and versions but different iteration order. -/
theorem content_hash_determined_by_membership_and_versions_witness :
    (([("b", Component.mk "B" "r" none "p" none none),
       ("a", Component.mk "A" "r" none "p" none
          (some (AssetInfo.mk "u" "1.0" (some 0) (some ""))))] : Selection).map
        Prod.fst).Perm
      (([("a", Component.mk "A2" "r2" none "p2" none
            (some (AssetInfo.mk "u2" "1.0" (some 5) none))),
         ("b", Component.mk "B2" "r2" none "p2" none none)] : Selection).map
          Prod.fst) ∧
    (∀ k ∈ ([("b", Component.mk "B" "r" none "p" none none),
             ("a", Component.mk "A" "r" none "p" none
                (some (AssetInfo.mk "u" "1.0" (some 0) (some ""))))] : Selection).map
              Prod.fst,
      (([("b", Component.mk "B" "r" none "p" none none),
         ("a", Component.mk "A" "r" none "p" none
            (some (AssetInfo.mk "u" "1.0" (some 0) (some ""))))] : Selection).lookup
          k).map versionOf =
        (([("a", Component.mk "A2" "r2" none "p2" none
              (some (AssetInfo.mk "u2" "1.0" (some 5) none))),
           ("b", Component.mk "B2" "r2" none "p2" none none)] : Selection).lookup
            k).map versionOf) ∧
    compute_content_hash
        [("b", Component.mk "B" "r" none "p" none none),
         ("a", Component.mk "A" "r" none "p" none
            (some (AssetInfo.mk "u" "1.0" (some 0) (some ""))))] =
      compute_content_hash
        [("a", Component.mk "A2" "r2" none "p2" none
            (some (AssetInfo.mk "u2" "1.0" (some 5) none))),
         ("b", Component.mk "B2" "r2" none "p2" none none)] :=
  ⟨by decide, by decide,
   content_hash_determined_by_membership_and_versions _ _ (by decide) (by decide)⟩

/-! ### Glob matching

Model of Python `fnmatch.fnmatch(name, pattern)` on a POSIX platform
(where `os.path.normcase` is the identity): `*` matches any sequence,
`?` any single character, `[seq]` a character class with ranges and `!`
negation (a `]` directly after `[` or `[!` is literal, an unterminated
`[` is literal), and the whole name must match.  The matcher carries a
fuel argument so that it is structurally recursive (and hence reduces in
the kernel); the fuel `pattern.length + name.length + 1` strictly
dominates every recursion path, each of which shortens
pattern-plus-name. -/

inductive GlobTok where
  | star
  | qmark
  | lit (c : Char)
  | cls (negate : Bool) (content : List Char)
deriving Repr, DecidableEq

/-- Scan for the closing `]` of a character class; returns the content and
the remainder after the bracket. -/
def findClose (acc : List Char) : List Char → Option (List Char × List Char)
  | [] => none
  | c :: rest => if c = ']' then some (acc.reverse, rest) else findClose (c :: acc) rest

/-- Parse a character class body (the characters after `[`): negation flag,
class content, remainder after the closing bracket. -/
def parseCls (l : List Char) : Option (Bool × List Char × List Char) :=
  let (neg, body) := if l.head? = some '!' then (true, l.tail) else (false, l)
  let scan := if body.head? = some ']' then findClose [']'] body.tail else findClose [] body
  scan.map (fun p => (neg, p.1, p.2))

/-- Tokenize a glob pattern (fuel-structural; `parseCls` consumes at least
one character, so `l.length + 1` fuel always suffices). -/
def parseGlobF : Nat → List Char → List GlobTok
  | 0, _ => []
  | _ + 1, [] => []
  | fuel + 1, c :: rest =>
    if c = '*' then .star :: parseGlobF fuel rest
    else if c = '?' then .qmark :: parseGlobF fuel rest
    else if c = '[' then
      match parseCls rest with
      | some (neg, content, after) => .cls neg content :: parseGlobF fuel after
      | none => .lit '[' :: parseGlobF fuel rest
    else .lit c :: parseGlobF fuel rest

def parseGlob (l : List Char) : List GlobTok := parseGlobF (l.length + 1) l

/-- Character-class membership: ranges `a-b`, otherwise literal characters
(a trailing or leading `-` is literal). -/
def classMatch : List Char → Char → Bool
  | a :: '-' :: b :: rest, c =>
    if a ≤ c ∧ c ≤ b then true else classMatch rest c
  | a :: rest, c => (a == c) || classMatch rest c
  | [], _ => false

/-- Token-list matcher (fuel-structural: every recursion shortens tokens
plus residual name, so `ps.length + s.length + 1` fuel suffices). -/
def gmatchF : Nat → List GlobTok → List Char → Bool
  | 0, _, _ => false
  | _ + 1, [], s => s.isEmpty
  | fuel + 1, .star :: ps, [] => gmatchF fuel ps []
  | fuel + 1, .star :: ps, c :: cs =>
    gmatchF fuel ps (c :: cs) || gmatchF fuel (.star :: ps) cs
  | fuel + 1, .qmark :: ps, _ :: cs => gmatchF fuel ps cs
  | fuel + 1, .lit a :: ps, c :: cs => (a == c) && gmatchF fuel ps cs
  | fuel + 1, .cls neg content :: ps, c :: cs =>
    (classMatch content c != neg) && gmatchF fuel ps cs
  | _ + 1, _ :: _, [] => false

def gmatch (ps : List GlobTok) (s : List Char) : Bool :=
  gmatchF (ps.length + s.length + 1) ps s

/-- Model of `fnmatch(name, pattern)` as used by the script. -/
def fnmatchB (name pattern : String) : Bool :=
  gmatch (parseGlob pattern.data) name.data

example : fnmatchB "hekate_ctcaer_6.2.0.zip" "hekate_ctcaer_*.zip" = true := by decide

example : fnmatchB "hekate_ctcaer_6.2.0.zip" "*.bin" = false := by decide

example : fnmatchB "" "*" = true := by decide

example : fnmatchB "file7.nro" "file[0-9].nro" = true := by decide

example : fnmatchB "fileX.nro" "file[0-9].nro" = false := by decide

example : fnmatchB "fileX.nro" "file[!0-9].nro" = true := by decide

/-! ### Release resolution (`get_release_asset_info`, hatskit.py 222-279)

The network is modelled as an explicit list of `NetResponse`s consumed
one per `requests.get` call; the rate-limit retry (`handle_rate_limit`
plus the recursive call at line 257) consumes the next response from the
list.  An empty list, like a `failure` entry, models
`requests.exceptions.RequestException`.  The output records the result,
the updated cache, the requests issued (in order) and the sleeps
performed. -/

/-- The on-disk / in-memory resolution cache: dict keyed by
`"{repo}@{tag-or-latest}|{pattern}"`. -/
abbrev Cache := List (String × AssetInfo)

/-- `CACHE_DURATION = timedelta(hours=12)` in seconds. -/
def cacheDuration : Int := 43200

/-- Python dict assignment `cache[cache_key] = asset_info`. -/
def cacheInsert (key : String) (v : AssetInfo) (cache : Cache) : Cache :=
  (key, v) :: cache.filter (fun p => p.1 != key)

/-- `cache_key = f"{repo}@{tag or 'latest'}|{asset_pattern}"` (Python `or`
replaces both `None` and the empty string by `'latest'`). -/
def cacheKey (c : Component) : String :=
  c.repo ++ "@" ++
    (match c.tag with
     | some t => if t = "" then "latest" else t
     | none => "latest") ++ "|" ++ c.assetPattern

/-- Truthiness of `component.get('tag')` (`if tag:`). -/
def tagTruthy (c : Component) : Bool :=
  match c.tag with
  | some t => t != ""
  | none => false

/-- The release-API endpoint chosen at lines 240-243. -/
def apiUrl (c : Component) : String :=
  if tagTruthy c then
    "https://api.github.com/repos/" ++ c.repo ++ "/releases/tags/" ++ c.tag.getD ""
  else
    "https://api.github.com/repos/" ++ c.repo ++ "/releases"

/-- The observable part of one API request: URL, whether an
`Authorization` header was attached, and the `If-None-Match` value
(present iff the cache holds an entry with an `"etag"` key). -/
structure ReqInfo where
  url : String
  hasAuth : Bool
  ifNoneMatch : Option String
deriving Repr, DecidableEq

def mkReq (c : Component) (token : Bool) (cache : Cache) : ReqInfo :=
  ⟨apiUrl c, token, (cache.lookup (cacheKey c)).bind (fun e => e.etag)⟩

/-- One asset object of a release JSON. -/
structure GAsset where
  name : String
  browser_download_url : String
deriving Repr, DecidableEq

/-- One release JSON object (`tag_name` may be absent:
`release_data.get('tag_name', 'N/A')`). -/
structure GRelease where
  tag_name : Option String
  assets : List GAsset
deriving Repr, DecidableEq

/-- JSON body of a release-API response: an object for the tag-specific
endpoint, an array for the releases-list endpoint. -/
inductive Payload where
  | obj (r : GRelease)
  | arr (rs : List GRelease)
deriving Repr, DecidableEq

/-- One network response: `failure` is a raised
`requests.exceptions.RequestException`; `reply` carries the status code,
the `ETag`, `x-ratelimit-remaining` and `x-ratelimit-reset` headers, and
the JSON payload. -/
inductive NetResponse where
  | failure
  | reply (status : Nat) (etagHdr : Option String) (rateRemaining : Option String)
      (rateReset : Option Int) (payload : Payload)
deriving Repr, DecidableEq

/-- Resolution result: `found` a fresh/matched `AssetInfo`, `notFound`
(Python `None`), or `crash` for the uncaught-exception paths (a `304`
with no cache entry, or a payload whose shape contradicts the endpoint). -/
inductive ResolveRes where
  | found (a : AssetInfo)
  | notFound
  | crash
deriving Repr, DecidableEq

structure ResolveOut where
  res : ResolveRes
  cache : Cache
  reqs : List ReqInfo
  sleeps : List Int
deriving Repr, DecidableEq

/-- The fresh-cache short-circuit at lines 229-238: applies when no forced
refresh is requested, an entry exists, its timestamp parses, and
`now - resolvedAt < CACHE_DURATION`. -/
def cacheFreshEntry (clearCache : Bool) (cache : Cache) (key : String) (now : Int) :
    Option AssetInfo :=
  if clearCache then none
  else
    match cache.lookup key with
    | none => none
    | some e =>
      match e.timestamp with
      | some ts => if now - ts < cacheDuration then some e else none
      | none => none

/-- `fnmatch(asset['name'], asset_pattern)` over the release's assets in
API order, first match wins (lines 267-268). -/
def firstMatchingAsset (pat : String) (assets : List GAsset) : Option GAsset :=
  assets.find? (fun a => fnmatchB a.name pat)

/-- The asset scan and cache write of lines 267-277. -/
def scanRelease (c : Component) (now : Int) (respEtag : Option String)
    (cache : Cache) (req : ReqInfo) (r : GRelease) : ResolveOut :=
  match firstMatchingAsset c.assetPattern r.assets with
  | some a =>
    let info : AssetInfo :=
      ⟨a.browser_download_url, r.tag_name.getD "N/A", some now, some (respEtag.getD "")⟩
    ⟨.found info, cacheInsert (cacheKey c) info cache, [req], []⟩
  | none => ⟨.notFound, cache, [req], []⟩

/-- Model of `get_release_asset_info(component, token, cache)`
(hatskit.py lines 222-279).  `clearCache` is `args.clear_cache`, `token`
is the truthiness of the PAT, `now` the current UTC time in seconds.
On a rate-limited response (`handle_rate_limit`, lines 212-220 and
256-257) the function sleeps `wait + 1` seconds and retries once by
recursing on the remaining response stream with the clock advanced. -/
def get_release_asset_info (clearCache : Bool) (c : Component) (token : Bool)
    (cache : Cache) (now : Int) : List NetResponse → ResolveOut
  | [] =>
    match cacheFreshEntry clearCache cache (cacheKey c) now with
    | some e => ⟨.found e, cache, [], []⟩
    | none => ⟨.notFound, cache, [mkReq c token cache], []⟩
  | .failure :: _ =>
    match cacheFreshEntry clearCache cache (cacheKey c) now with
    | some e => ⟨.found e, cache, [], []⟩
    | none => ⟨.notFound, cache, [mkReq c token cache], []⟩
  | .reply status etagHdr rateRemaining rateReset payload :: rest =>
    match cacheFreshEntry clearCache cache (cacheKey c) now with
    | some e => ⟨.found e, cache, [], []⟩
    | none =>
      let req := mkReq c token cache
      if status = 304 then
        match cache.lookup (cacheKey c) with
        | some e => ⟨.found e, cache, [req], []⟩
        | none => ⟨.crash, cache, [req], []⟩
      else if (status = 403 ∨ status = 429) ∧ rateRemaining = some "0" then
        let wait := max (rateReset.getD 0 - now) 1
        let o := get_release_asset_info clearCache c token cache (now + wait + 1) rest
        ⟨o.res, o.cache, req :: o.reqs, (wait + 1) :: o.sleeps⟩
      else if 400 ≤ status ∧ status < 600 then ⟨.notFound, cache, [req], []⟩
      else
        match tagTruthy c, payload with
        | false, .arr [] => ⟨.notFound, cache, [req], []⟩
        | false, .arr (r :: _) => scanRelease c now etagHdr cache req r
        | true, .obj r => scanRelease c now etagHdr cache req r
        | _, _ => ⟨.crash, cache, [req], []⟩

/-! Step lemmas: one equation per control-flow branch of
`get_release_asset_info`. -/

theorem gra_fresh_hit {cc : Bool} {c : Component} {tok : Bool} {cache : Cache}
    {now : Int} {e : AssetInfo} (rs : List NetResponse)
    (h : cacheFreshEntry cc cache (cacheKey c) now = some e) :
    get_release_asset_info cc c tok cache now rs = ⟨.found e, cache, [], []⟩ := by
  cases rs with
  | nil => rw [get_release_asset_info.eq_def, h]
  | cons r rest =>
    cases r with
    | failure => rw [get_release_asset_info.eq_def, h]
    | reply st etg rem rst pl => rw [get_release_asset_info.eq_def, h]

theorem gra_nil {cc : Bool} {c : Component} {tok : Bool} {cache : Cache} {now : Int}
    (h : cacheFreshEntry cc cache (cacheKey c) now = none) :
    get_release_asset_info cc c tok cache now [] =
      ⟨.notFound, cache, [mkReq c tok cache], []⟩ := by
  rw [get_release_asset_info.eq_def, h]

theorem gra_failure {cc : Bool} {c : Component} {tok : Bool} {cache : Cache} {now : Int}
    (rest : List NetResponse)
    (h : cacheFreshEntry cc cache (cacheKey c) now = none) :
    get_release_asset_info cc c tok cache now (.failure :: rest) =
      ⟨.notFound, cache, [mkReq c tok cache], []⟩ := by
  rw [get_release_asset_info.eq_def, h]

theorem gra_304 {cc : Bool} {c : Component} {tok : Bool} {cache : Cache} {now : Int}
    {etg : Option String} {rem : Option String} {rst : Option Int} {pl : Payload}
    (rest : List NetResponse)
    (h : cacheFreshEntry cc cache (cacheKey c) now = none) :
    get_release_asset_info cc c tok cache now (.reply 304 etg rem rst pl :: rest) =
      match cache.lookup (cacheKey c) with
      | some e => ⟨.found e, cache, [mkReq c tok cache], []⟩
      | none => ⟨.crash, cache, [mkReq c tok cache], []⟩ := by
  rw [get_release_asset_info.eq_def, h]
  dsimp only
  rw [if_pos rfl]

theorem gra_rate_limited {cc : Bool} {c : Component} {tok : Bool} {cache : Cache}
    {now : Int} {status : Nat} {etg rem : Option String} {rst : Option Int}
    {pl : Payload} (rest : List NetResponse)
    (hfresh : cacheFreshEntry cc cache (cacheKey c) now = none)
    (hst : status = 403 ∨ status = 429)
    (hrem : rem = some "0") :
    get_release_asset_info cc c tok cache now (.reply status etg rem rst pl :: rest) =
      { res := (get_release_asset_info cc c tok cache
          (now + max (rst.getD 0 - now) 1 + 1) rest).res,
        cache := (get_release_asset_info cc c tok cache
          (now + max (rst.getD 0 - now) 1 + 1) rest).cache,
        reqs := mkReq c tok cache :: (get_release_asset_info cc c tok cache
          (now + max (rst.getD 0 - now) 1 + 1) rest).reqs,
        sleeps := (max (rst.getD 0 - now) 1 + 1) :: (get_release_asset_info cc c tok cache
          (now + max (rst.getD 0 - now) 1 + 1) rest).sleeps } := by
  have h304 : ¬ (status = 304) := by rcases hst with h | h <;> subst h <;> decide
  rw [get_release_asset_info.eq_def, hfresh]
  dsimp only
  rw [if_neg h304, if_pos ⟨hst, hrem⟩]

theorem gra_http_error {cc : Bool} {c : Component} {tok : Bool} {cache : Cache}
    {now : Int} {status : Nat} {etg rem : Option String} {rst : Option Int}
    {pl : Payload} (rest : List NetResponse)
    (hfresh : cacheFreshEntry cc cache (cacheKey c) now = none)
    (h304 : ¬ (status = 304))
    (hrate : ¬ ((status = 403 ∨ status = 429) ∧ rem = some "0"))
    (herr : 400 ≤ status ∧ status < 600) :
    get_release_asset_info cc c tok cache now (.reply status etg rem rst pl :: rest) =
      ⟨.notFound, cache, [mkReq c tok cache], []⟩ := by
  rw [get_release_asset_info.eq_def, hfresh]
  dsimp only
  rw [if_neg h304, if_neg hrate, if_pos herr]

theorem gra_parse {cc : Bool} {c : Component} {tok : Bool} {cache : Cache}
    {now : Int} {status : Nat} {etg rem : Option String} {rst : Option Int}
    {pl : Payload} (rest : List NetResponse)
    (hfresh : cacheFreshEntry cc cache (cacheKey c) now = none)
    (h304 : ¬ (status = 304))
    (hrate : ¬ ((status = 403 ∨ status = 429) ∧ rem = some "0"))
    (herr : ¬ (400 ≤ status ∧ status < 600)) :
    get_release_asset_info cc c tok cache now (.reply status etg rem rst pl :: rest) =
      match tagTruthy c, pl with
      | false, .arr [] => ⟨.notFound, cache, [mkReq c tok cache], []⟩
      | false, .arr (r :: _) => scanRelease c now etg cache (mkReq c tok cache) r
      | true, .obj r => scanRelease c now etg cache (mkReq c tok cache) r
      | _, _ => ⟨.crash, cache, [mkReq c tok cache], []⟩ := by
  rw [get_release_asset_info.eq_def, hfresh]
  dsimp only
  rw [if_neg h304, if_neg hrate, if_neg herr]

/-- A cache miss (no entry, unparsable timestamp, or expired) stays a miss
as the clock advances. -/
theorem cacheFreshEntry_none_mono {cc : Bool} {cache : Cache} {key : String}
    {now d : Int} (hd : 0 ≤ d) (h : cacheFreshEntry cc cache key now = none) :
    cacheFreshEntry cc cache key (now + d) = none := by
  unfold cacheFreshEntry at h ⊢
  cases cc with
  | true => simp
  | false =>
    simp only [Bool.false_eq_true, if_false] at h ⊢
    cases hlk : cache.lookup key with
    | none => rfl
    | some e =>
      rw [hlk] at h
      dsimp only at h ⊢
      cases hts : e.timestamp with
      | none => rfl
      | some ts =>
        rw [hts] at h
        dsimp only at h ⊢
        split at h
        · exact absurd h (by simp)
        · rename_i hge
          unfold cacheDuration at hge ⊢
          rw [if_neg (by omega)]

/-- If the asset scan finds no match it leaves the cache unchanged. -/
theorem scanRelease_cache_of_notFound {c : Component} {now : Int}
    {etg : Option String} {cache : Cache} {req : ReqInfo} {r : GRelease}
    (h : (scanRelease c now etg cache req r).res = .notFound) :
    (scanRelease c now etg cache req r).cache = cache := by
  unfold scanRelease at h ⊢
  cases hm : firstMatchingAsset c.assetPattern r.assets with
  | none => rfl
  | some a => rw [hm] at h; simp at h

/-- A resolution that returns `notFound` never writes the cache. -/
theorem gra_cache_of_notFound {cc : Bool} {c : Component} {tok : Bool} :
    ∀ (rs : List NetResponse) (cache : Cache) (now : Int),
      (get_release_asset_info cc c tok cache now rs).res = .notFound →
      (get_release_asset_info cc c tok cache now rs).cache = cache := by
  intro rs
  induction rs with
  | nil =>
    intro cache now h
    cases hf : cacheFreshEntry cc cache (cacheKey c) now with
    | some e => rw [gra_fresh_hit [] hf]
    | none => rw [gra_nil hf]
  | cons r rest ih =>
    intro cache now h
    cases hf : cacheFreshEntry cc cache (cacheKey c) now with
    | some e => rw [gra_fresh_hit _ hf]
    | none =>
      cases r with
      | failure => rw [gra_failure rest hf]
      | reply st etg rem rst pl =>
        by_cases h304 : st = 304
        · subst h304
          rw [gra_304 rest hf]
          cases hlk : cache.lookup (cacheKey c) with
          | some e => rfl
          | none => rfl
        · by_cases hrate : (st = 403 ∨ st = 429) ∧ rem = some "0"
          · rw [gra_rate_limited rest hf hrate.1 hrate.2] at h ⊢
            exact ih _ _ h
          · by_cases herr : 400 ≤ st ∧ st < 600
            · rw [gra_http_error rest hf h304 hrate herr]
            · rw [gra_parse rest hf h304 hrate herr] at h ⊢
              cases htag : tagTruthy c with
              | false =>
                rw [htag] at h
                cases pl with
                | obj r => rfl
                | arr rs =>
                  cases rs with
                  | nil => rfl
                  | cons r rs' => exact scanRelease_cache_of_notFound h
              | true =>
                rw [htag] at h
                cases pl with
                | obj r => exact scanRelease_cache_of_notFound h
                | arr rs => rfl

/-- The payload shape a conforming server returns for this component's
endpoint: a release object when a tag is pinned, a releases array (whose
first element is "latest") otherwise. -/
def payloadFor (c : Component) (r : GRelease) : Payload :=
  if tagTruthy c then .obj r else .arr [r]

/-- Dict assignment then lookup of the same key. -/
theorem lookup_cacheInsert_self (key : String) (v : AssetInfo) (cache : Cache) :
    (cacheInsert key v cache).lookup key = some v := by
  unfold cacheInsert
  simp [List.lookup]

/-- An entry just written with timestamp `now` is fresh at any `now2`
within the TTL. -/
theorem cacheFreshEntry_insert_self {key : String} {v : AssetInfo} {cache : Cache}
    {now now2 : Int} (hts : v.timestamp = some now)
    (httl : now2 - now < cacheDuration) :
    cacheFreshEntry false (cacheInsert key v cache) key now2 = some v := by
  unfold cacheFreshEntry
  simp only [Bool.false_eq_true, if_false]
  rw [lookup_cacheInsert_self]
  dsimp only
  rw [hts]
  dsimp only
  rw [if_pos httl]

/-- Successful resolution: a 2xx response whose release contains a
glob-matching asset builds a new `AssetInfo` timestamped `now`, overwrites
the cache entry, and returns it. -/
theorem gra_success {cc : Bool} {c : Component} {tok : Bool} {cache : Cache}
    {now : Int} {status : Nat} {etg rem : Option String} {rst : Option Int}
    {r : GRelease} {ast : GAsset} (rest : List NetResponse)
    (hfresh : cacheFreshEntry cc cache (cacheKey c) now = none)
    (h304 : ¬ (status = 304))
    (hrate : ¬ ((status = 403 ∨ status = 429) ∧ rem = some "0"))
    (herr : ¬ (400 ≤ status ∧ status < 600))
    (hm : firstMatchingAsset c.assetPattern r.assets = some ast) :
    get_release_asset_info cc c tok cache now
        (.reply status etg rem rst (payloadFor c r) :: rest) =
      ⟨.found ⟨ast.browser_download_url, r.tag_name.getD "N/A", some now, some (etg.getD "")⟩,
       cacheInsert (cacheKey c)
         ⟨ast.browser_download_url, r.tag_name.getD "N/A", some now, some (etg.getD "")⟩ cache,
       [mkReq c tok cache], []⟩ := by
  rw [gra_parse rest hfresh h304 hrate herr]
  cases htag : tagTruthy c with
  | false =>
    simp only [payloadFor, htag, Bool.false_eq_true, if_false]
    unfold scanRelease
    rw [hm]
  | true =>
    simp only [payloadFor, htag, if_true]
    unfold scanRelease
    rw [hm]

/-- Zero matching assets: the resolver returns `notFound` and leaves the
cache unchanged. -/
theorem gra_no_match {cc : Bool} {c : Component} {tok : Bool} {cache : Cache}
    {now : Int} {status : Nat} {etg rem : Option String} {rst : Option Int}
    {r : GRelease} (rest : List NetResponse)
    (hfresh : cacheFreshEntry cc cache (cacheKey c) now = none)
    (h304 : ¬ (status = 304))
    (hrate : ¬ ((status = 403 ∨ status = 429) ∧ rem = some "0"))
    (herr : ¬ (400 ≤ status ∧ status < 600))
    (hm : firstMatchingAsset c.assetPattern r.assets = none) :
    get_release_asset_info cc c tok cache now
        (.reply status etg rem rst (payloadFor c r) :: rest) =
      ⟨.notFound, cache, [mkReq c tok cache], []⟩ := by
  rw [gra_parse rest hfresh h304 hrate herr]
  cases htag : tagTruthy c with
  | false =>
    simp only [payloadFor, htag, Bool.false_eq_true, if_false]
    unfold scanRelease
    rw [hm]
  | true =>
    simp only [payloadFor, htag, if_true]
    unfold scanRelease
    rw [hm]

/-- Every resolution that misses the fresh cache issues as its first
request exactly `mkReq` — URL per endpoint, auth per token, and
`If-None-Match` from the cached ETag. -/
theorem gra_first_req {cc : Bool} {c : Component} {tok : Bool} {cache : Cache}
    {now : Int} (r : NetResponse) (rest : List NetResponse)
    (hfresh : cacheFreshEntry cc cache (cacheKey c) now = none) :
    (get_release_asset_info cc c tok cache now (r :: rest)).reqs.head? =
      some (mkReq c tok cache) := by
  cases r with
  | failure => rw [gra_failure rest hfresh]; rfl
  | reply st etg rem rst pl =>
    by_cases h304 : st = 304
    · subst h304
      rw [gra_304 rest hfresh]
      cases hlk : cache.lookup (cacheKey c) <;> rfl
    · by_cases hrate : (st = 403 ∨ st = 429) ∧ rem = some "0"
      · rw [gra_rate_limited rest hfresh hrate.1 hrate.2]; rfl
      · by_cases herr : 400 ≤ st ∧ st < 600
        · rw [gra_http_error rest hfresh h304 hrate herr]; rfl
        · rw [gra_parse rest hfresh h304 hrate herr]
          cases htag : tagTruthy c with
          | false =>
            cases pl with
            | obj r0 => rfl
            | arr rs =>
              cases rs with
              | nil => rfl
              | cons r0 rs' =>
                dsimp only
                unfold scanRelease
                cases hm : firstMatchingAsset c.assetPattern r0.assets <;> rfl
          | true =>
            cases pl with
            | obj r0 =>
              dsimp only
              unfold scanRelease
              cases hm : firstMatchingAsset c.assetPattern r0.assets <;> rfl
            | arr rs => rfl

/-- Sample fixtures for concrete witnesses. -/
def sampleComp : Component :=
  ⟨"Hekate", "CTCaer/hekate", none, "*.zip", some "github_release", none⟩

def sampleEntry : AssetInfo := ⟨"u", "v1", some 100, some "W"⟩

def sampleAsset : GAsset := ⟨"a.zip", "u2"⟩

def sampleRelease : GRelease := ⟨some "v2", [sampleAsset]⟩

/-- C2: a non-expired cache entry under the descriptor's key, absent a
forced refresh, is returned with zero network requests and an unchanged
cache; consequently a cold resolution that succeeds via a 200 response
(exactly one request, new entry timestamped `now`) followed by a second
resolution of the same descriptor within the TTL window yields the same
`AssetInfo` again with zero further requests — one network call total. -/
theorem resolver_ttl_single_network_call (c : Component) (tok : Bool) (cache : Cache)
    (now now2 : Int) :
    (∀ (e : AssetInfo) (rs : List NetResponse),
      cacheFreshEntry false cache (cacheKey c) now = some e →
      get_release_asset_info false c tok cache now rs = ⟨.found e, cache, [], []⟩) ∧
    (∀ (etg rem : Option String) (rst : Option Int) (r : GRelease) (ast : GAsset)
       (rs2 : List NetResponse),
      cacheFreshEntry false cache (cacheKey c) now = none →
      firstMatchingAsset c.assetPattern r.assets = some ast →
      now2 - now < cacheDuration →
      (get_release_asset_info false c tok cache now
          [.reply 200 etg rem rst (payloadFor c r)]).res =
        .found ⟨ast.browser_download_url, r.tag_name.getD "N/A", some now,
          some (etg.getD "")⟩ ∧
      (get_release_asset_info false c tok cache now
          [.reply 200 etg rem rst (payloadFor c r)]).reqs.length = 1 ∧
      get_release_asset_info false c tok
          (get_release_asset_info false c tok cache now
              [.reply 200 etg rem rst (payloadFor c r)]).cache now2 rs2 =
        ⟨.found ⟨ast.browser_download_url, r.tag_name.getD "N/A", some now,
            some (etg.getD "")⟩,
          (get_release_asset_info false c tok cache now
              [.reply 200 etg rem rst (payloadFor c r)]).cache, [], []⟩) := by
  constructor
  · exact fun e rs h => gra_fresh_hit rs h
  · intro etg rem rst r ast rs2 hfresh hm httl
    rw [gra_success [] hfresh (by omega)
      (fun h => by rcases h.1 with h1 | h1 <;> omega) (by omega) hm]
    exact ⟨rfl, rfl, gra_fresh_hit rs2 (cacheFreshEntry_insert_self rfl httl)⟩

/-- Witness for C2: part one at a warm cache, part two at a cold cache
resolved through a single 200 response and re-resolved 100 seconds
later. -/
theorem resolver_ttl_single_network_call_witness :
    (cacheFreshEntry false [(cacheKey sampleComp, sampleEntry)] (cacheKey sampleComp) 200 =
        some sampleEntry ∧
      get_release_asset_info false sampleComp true [(cacheKey sampleComp, sampleEntry)] 200
          [.failure] =
        ⟨.found sampleEntry, [(cacheKey sampleComp, sampleEntry)], [], []⟩) ∧
    (cacheFreshEntry false [] (cacheKey sampleComp) 0 = none ∧
      firstMatchingAsset sampleComp.assetPattern sampleRelease.assets = some sampleAsset ∧
      (100 : Int) - 0 < cacheDuration ∧
      ((get_release_asset_info false sampleComp true [] 0
            [.reply 200 none none none (payloadFor sampleComp sampleRelease)]).res =
          .found ⟨"u2", "v2", some 0, some ""⟩ ∧
        (get_release_asset_info false sampleComp true [] 0
            [.reply 200 none none none (payloadFor sampleComp sampleRelease)]).reqs.length =
          1 ∧
        get_release_asset_info false sampleComp true
            (get_release_asset_info false sampleComp true [] 0
                [.reply 200 none none none (payloadFor sampleComp sampleRelease)]).cache
            100 [] =
          ⟨.found ⟨"u2", "v2", some 0, some ""⟩,
            (get_release_asset_info false sampleComp true [] 0
                [.reply 200 none none none (payloadFor sampleComp sampleRelease)]).cache,
            [], []⟩)) :=
  ⟨⟨by decide,
    (resolver_ttl_single_network_call sampleComp true
        [(cacheKey sampleComp, sampleEntry)] 200 0).1 sampleEntry [.failure] (by decide)⟩,
   by decide, by decide, by decide,
   (resolver_ttl_single_network_call sampleComp true [] 0 100).2
     none none none sampleRelease sampleAsset [] (by decide) (by decide) (by decide)⟩

/-- C3: with an expired cache entry carrying an ETag, every resolution
request sends `If-None-Match` with that ETag; a `304` response returns the
cached `AssetInfo` unmodified and does not rewrite the cache entry; a
`200` response whose release contains a glob-matching asset builds a new
`AssetInfo`, overwrites the cache entry with it, and returns it. -/
theorem resolver_conditional_revalidation (c : Component) (tok : Bool) (cache : Cache)
    (now : Int) (e : AssetInfo) (tg : String) (ts : Int)
    (hlk : cache.lookup (cacheKey c) = some e)
    (hetag : e.etag = some tg)
    (hts : e.timestamp = some ts)
    (hexp : cacheDuration ≤ now - ts) :
    (∀ (r1 : NetResponse) (rest : List NetResponse),
      ((get_release_asset_info false c tok cache now (r1 :: rest)).reqs.head?).map
          (fun q => q.ifNoneMatch) = some (some tg)) ∧
    (∀ (etg rem : Option String) (rst : Option Int) (pl : Payload)
       (rest : List NetResponse),
      get_release_asset_info false c tok cache now (.reply 304 etg rem rst pl :: rest) =
        ⟨.found e, cache, [mkReq c tok cache], []⟩) ∧
    (∀ (etg rem : Option String) (rst : Option Int) (r : GRelease) (ast : GAsset)
       (rest : List NetResponse),
      firstMatchingAsset c.assetPattern r.assets = some ast →
      get_release_asset_info false c tok cache now
          (.reply 200 etg rem rst (payloadFor c r) :: rest) =
        ⟨.found ⟨ast.browser_download_url, r.tag_name.getD "N/A", some now,
            some (etg.getD "")⟩,
          cacheInsert (cacheKey c)
            ⟨ast.browser_download_url, r.tag_name.getD "N/A", some now,
              some (etg.getD "")⟩ cache,
          [mkReq c tok cache], []⟩) := by
  have hfresh : cacheFreshEntry false cache (cacheKey c) now = none := by
    unfold cacheFreshEntry
    simp only [Bool.false_eq_true, if_false]
    rw [hlk]
    dsimp only
    rw [hts]
    dsimp only
    rw [if_neg (by omega)]
  refine ⟨?_, ?_, ?_⟩
  · intro r1 rest
    rw [gra_first_req r1 rest hfresh]
    unfold mkReq
    rw [hlk]
    dsimp only [Option.map_some']
    rw [Option.some_bind, hetag]
  · intro etg rem rst pl rest
    rw [gra_304 rest hfresh]
    rw [hlk]
  · intro etg rem rst r ast rest hm
    exact gra_success rest hfresh (by omega)
      (fun h => by rcases h.1 with h1 | h1 <;> omega) (by omega) hm

/-- Witness for C3 at an expired sample cache entry, exercising the
`If-None-Match` header, the `304` path and the `200` overwrite path. -/
theorem resolver_conditional_revalidation_witness :
    ([(cacheKey sampleComp, sampleEntry)] : Cache).lookup (cacheKey sampleComp) =
        some sampleEntry ∧
    sampleEntry.etag = some "W" ∧
    sampleEntry.timestamp = some 100 ∧
    cacheDuration ≤ (50000 : Int) - 100 ∧
    ((get_release_asset_info false sampleComp true [(cacheKey sampleComp, sampleEntry)]
          50000 [.failure]).reqs.head?).map (fun q => q.ifNoneMatch) = some (some "W") ∧
    get_release_asset_info false sampleComp true [(cacheKey sampleComp, sampleEntry)]
        50000 [.reply 304 none none none (.arr [])] =
      ⟨.found sampleEntry, [(cacheKey sampleComp, sampleEntry)],
        [mkReq sampleComp true [(cacheKey sampleComp, sampleEntry)]], []⟩ ∧
    get_release_asset_info false sampleComp true [(cacheKey sampleComp, sampleEntry)]
        50000 [.reply 200 (some "W2") none none (payloadFor sampleComp sampleRelease)] =
      ⟨.found ⟨"u2", "v2", some 50000, some "W2"⟩,
        cacheInsert (cacheKey sampleComp) ⟨"u2", "v2", some 50000, some "W2"⟩
          [(cacheKey sampleComp, sampleEntry)],
        [mkReq sampleComp true [(cacheKey sampleComp, sampleEntry)]], []⟩ :=
  ⟨by decide, by decide, by decide, by decide,
   (resolver_conditional_revalidation sampleComp true [(cacheKey sampleComp, sampleEntry)]
       50000 sampleEntry "W" 100 (by decide) (by decide) (by decide) (by decide)).1
     .failure [],
   (resolver_conditional_revalidation sampleComp true [(cacheKey sampleComp, sampleEntry)]
       50000 sampleEntry "W" 100 (by decide) (by decide) (by decide) (by decide)).2.1
     none none none (.arr []) [],
   (resolver_conditional_revalidation sampleComp true [(cacheKey sampleComp, sampleEntry)]
       50000 sampleEntry "W" 100 (by decide) (by decide) (by decide) (by decide)).2.2
     (some "W2") none none sampleRelease sampleAsset [] (by decide)⟩

/-- C5: a response with status 403 or 429 whose remaining-quota header
reads "0" makes the resolver compute `wait = max(resetEpoch - now, 1)`,
sleep `wait + 1` seconds, and retry the same resolution exactly once (the
whole output is that of a single recursive resolution on the remaining
response stream, with the request and the sleep recorded in front). -/
theorem rate_limit_wait_and_single_retry (cc : Bool) (c : Component) (tok : Bool)
    (cache : Cache) (now : Int) (status : Nat) (etg rem : Option String)
    (rst : Option Int) (pl : Payload) (rest : List NetResponse)
    (hfresh : cacheFreshEntry cc cache (cacheKey c) now = none)
    (hst : status = 403 ∨ status = 429)
    (hrem : rem = some "0") :
    get_release_asset_info cc c tok cache now (.reply status etg rem rst pl :: rest) =
      { res := (get_release_asset_info cc c tok cache
          (now + max (rst.getD 0 - now) 1 + 1) rest).res,
        cache := (get_release_asset_info cc c tok cache
          (now + max (rst.getD 0 - now) 1 + 1) rest).cache,
        reqs := mkReq c tok cache :: (get_release_asset_info cc c tok cache
          (now + max (rst.getD 0 - now) 1 + 1) rest).reqs,
        sleeps := (max (rst.getD 0 - now) 1 + 1) :: (get_release_asset_info cc c tok cache
          (now + max (rst.getD 0 - now) 1 + 1) rest).sleeps } :=
  gra_rate_limited rest hfresh hst hrem

/-- Witness for C5: a 403 response with exhausted quota and reset epoch
90 at clock 60 sleeps `max(90 - 60, 1) + 1 = 31` seconds and retries once
on the remaining stream. -/
theorem rate_limit_wait_and_single_retry_witness :
    cacheFreshEntry false ([] : Cache) (cacheKey sampleComp) 60 = none ∧
    ((403 : Nat) = 403 ∨ (403 : Nat) = 429) ∧
    (some "0" : Option String) = some "0" ∧
    get_release_asset_info false sampleComp true [] 60
        [.reply 403 none (some "0") (some 90) (.arr []), .failure] =
      { res := (get_release_asset_info false sampleComp true [] (60 + 30 + 1)
          [.failure]).res,
        cache := (get_release_asset_info false sampleComp true [] (60 + 30 + 1)
          [.failure]).cache,
        reqs := mkReq sampleComp true [] :: (get_release_asset_info false sampleComp true []
          (60 + 30 + 1) [.failure]).reqs,
        sleeps := (30 + 1) :: (get_release_asset_info false sampleComp true []
          (60 + 30 + 1) [.failure]).sleeps } :=
  ⟨by decide, Or.inl rfl, rfl,
   rate_limit_wait_and_single_retry false sampleComp true [] 60 403 none (some "0")
     (some 90) (.arr []) [.failure] (by decide) (Or.inl rfl) rfl⟩

/-! ### The per-component resolution pass (`run_builder`, hatskit.py 823-833)

Each component with `source_type == 'github_release'` is resolved in turn
against the shared cache; a truthy result is attached as `asset_info`,
otherwise the component is left untouched.  `nets` supplies each
component's response stream positionally (a modelling device; non-release
components consume their slot without issuing requests).  A `crash`
result aborts the program, modelled by `none`. -/

def resolvePass (cc : Bool) (tok : Bool) (now : Int) :
    List (String × Component) → List (List NetResponse) → Cache →
    Option (List (String × Component) × Cache)
  | [], _, cache => some ([], cache)
  | (id, c) :: rest, nets, cache =>
    if c.sourceType = some "github_release" then
      let o := get_release_asset_info cc c tok cache now (nets.headD [])
      match o.res with
      | .crash => none
      | .found a =>
        (resolvePass cc tok now rest nets.tail o.cache).map
          (fun p => ((id, { c with assetInfo := some a }) :: p.1, p.2))
      | .notFound =>
        (resolvePass cc tok now rest nets.tail o.cache).map
          (fun p => ((id, c) :: p.1, p.2))
    else
      (resolvePass cc tok now rest nets.tail cache).map
        (fun p => ((id, c) :: p.1, p.2))

/-- C9: a network error, like a release with zero glob-matching assets,
yields `notFound` with the cache unchanged, and the resolution pass then
continues over the remaining components exactly as it would have from the
same cache, with the failed component left without `asset_info` (excluded
from the buildable set); the failure is per-component and non-fatal. -/
theorem resolution_failure_nonfatal (cc : Bool) (tok : Bool) (now : Int) :
    (∀ (c : Component) (cache : Cache) (rest : List NetResponse),
      cacheFreshEntry cc cache (cacheKey c) now = none →
      get_release_asset_info cc c tok cache now (.failure :: rest) =
        ⟨.notFound, cache, [mkReq c tok cache], []⟩) ∧
    (∀ (c : Component) (cache : Cache) (etg rem : Option String) (rst : Option Int)
       (r : GRelease) (rest : List NetResponse),
      cacheFreshEntry cc cache (cacheKey c) now = none →
      firstMatchingAsset c.assetPattern r.assets = none →
      get_release_asset_info cc c tok cache now
          (.reply 200 etg rem rst (payloadFor c r) :: rest) =
        ⟨.notFound, cache, [mkReq c tok cache], []⟩) ∧
    (∀ (id : String) (c : Component) (rest : List (String × Component))
       (nets : List (List NetResponse)) (cache : Cache),
      c.sourceType = some "github_release" →
      (get_release_asset_info cc c tok cache now (nets.headD [])).res = .notFound →
      resolvePass cc tok now ((id, c) :: rest) nets cache =
        (resolvePass cc tok now rest nets.tail cache).map
          (fun p => ((id, c) :: p.1, p.2))) := by
  refine ⟨?_, ?_, ?_⟩
  · exact fun c cache rest h => gra_failure rest h
  · intro c cache etg rem rst r rest hfresh hm
    exact gra_no_match rest hfresh (by omega)
      (fun h => by rcases h.1 with h1 | h1 <;> omega) (by omega) hm
  · intro id c rest nets cache hsrc hnf
    rw [resolvePass.eq_def]
    dsimp only
    rw [if_pos hsrc, hnf]
    rw [gra_cache_of_notFound _ _ _ hnf]

/-- Witness for C9: a failed network call and a release with no matching
asset both yield `notFound`, and a two-component pass keeps processing the
second component after the first one fails. -/
theorem resolution_failure_nonfatal_witness :
    cacheFreshEntry false ([] : Cache) (cacheKey sampleComp) 0 = none ∧
    firstMatchingAsset sampleComp.assetPattern [GAsset.mk "a.txt" "u"] = none ∧
    sampleComp.sourceType = some "github_release" ∧
    (get_release_asset_info false sampleComp true [] 0
        ([[NetResponse.failure]].headD [])).res = .notFound ∧
    get_release_asset_info false sampleComp true [] 0 [.failure] =
      ⟨.notFound, [], [mkReq sampleComp true []], []⟩ ∧
    get_release_asset_info false sampleComp true [] 0
        [.reply 200 none none none (payloadFor sampleComp ⟨some "v", [⟨"a.txt", "u"⟩]⟩)] =
      ⟨.notFound, [], [mkReq sampleComp true []], []⟩ ∧
    resolvePass false true 0 [("h", sampleComp), ("x", sampleComp)] [[.failure]] [] =
      (resolvePass false true 0 [("x", sampleComp)] ([[NetResponse.failure]].tail) []).map
        (fun p => (("h", sampleComp) :: p.1, p.2)) :=
  ⟨by decide, by decide, by decide, by decide,
   (resolution_failure_nonfatal false true 0).1 sampleComp [] [] (by decide),
   (resolution_failure_nonfatal false true 0).2.1 sampleComp [] none none none
     ⟨some "v", [⟨"a.txt", "u"⟩]⟩ [] (by decide) (by decide),
   (resolution_failure_nonfatal false true 0).2.2 "h" sampleComp [("x", sampleComp)]
     [[.failure]] [] (by decide) (by decide)⟩

/-! ### Changelog (`run_builder`, hatskit.py 880-894)

`last_build['components']` maps ids to `{name, version}` dicts; loaded
JSON may lack either key (`get('name', comp_id)`, `get('version')`), so
both fields are `Option`.  Python string interpolation renders a missing
version as `"None"`. -/

structure RecEntry where
  name : Option String
  version : Option String
deriving Repr, DecidableEq

/-- Python `f"{x}"` on an optional string. -/
def pyOptStr : Option String → String
  | some s => s
  | none => "None"

instance {β : Type} : DecidableRel (fun (a b : String × β) => strLe a.1 b.1) :=
  fun _ _ => inferInstanceAs (Decidable (_ = true))

/-- Python `sorted(d.items())` on a dict with unique keys: pairs ordered by
key (tuple comparison never reaches the second component). -/
def sortPairs {β : Type} (l : List (String × β)) : List (String × β) :=
  List.insertionSort (fun a b => strLe a.1 b.1) l

/-- The changelog accumulation of `run_builder` lines 884-894, verbatim:
one pass over the sorted selection appending Added/Updated lines, then one
pass over the sorted previous record appending Removed lines. -/
def changelog (lastComponents : List (String × RecEntry)) (userChoices : Selection) :
    List String :=
  let changes := (sortPairs userChoices).foldl
    (fun acc p =>
      let currentVersion := versionOf p.2
      match lastComponents.lookup p.1 with
      | none => acc ++ ["* " ++ p.2.name ++ ": Newly Added (" ++ currentVersion ++ ")"]
      | some le =>
        if le.version ≠ some currentVersion then
          acc ++ ["* " ++ p.2.name ++ ": Updated from " ++ pyOptStr le.version ++
            " to " ++ currentVersion]
        else acc) []
  (sortPairs lastComponents).foldl
    (fun acc q =>
      if (userChoices.lookup q.1).isNone then
        acc ++ ["* " ++ q.2.name.getD q.1 ++ ": Removed (was " ++
          pyOptStr q.2.version ++ ")"]
      else acc) changes

/-- Classification of one selected component against the previous record:
Added when absent, Updated when the version differs, nothing when
unchanged. -/
def classifyLine (lastComponents : List (String × RecEntry)) (p : String × Component) :
    Option String :=
  let currentVersion := versionOf p.2
  match lastComponents.lookup p.1 with
  | none => some ("* " ++ p.2.name ++ ": Newly Added (" ++ currentVersion ++ ")")
  | some le =>
    if le.version ≠ some currentVersion then
      some ("* " ++ p.2.name ++ ": Updated from " ++ pyOptStr le.version ++
        " to " ++ currentVersion)
    else none

/-- Classification of one previously recorded component: Removed when no
longer selected. -/
def removedLine (userChoices : Selection) (q : String × RecEntry) : Option String :=
  if (userChoices.lookup q.1).isNone then
    some ("* " ++ q.2.name.getD q.1 ++ ": Removed (was " ++ pyOptStr q.2.version ++ ")")
  else none

/-- Folding an emit-or-skip step is the same as appending the
`filterMap`. -/
theorem foldl_emit_eq_filterMap {α : Type} (f : α → Option String) (l : List α) :
    ∀ (acc : List String),
      l.foldl (fun acc a =>
        match f a with
        | some s => acc ++ [s]
        | none => acc) acc = acc ++ l.filterMap f := by
  induction l with
  | nil => intro acc; simp
  | cons a t ih =>
    intro acc
    rw [List.foldl_cons, List.filterMap_cons]
    cases hf : f a with
    | none =>
      dsimp only
      exact ih acc
    | some s =>
      dsimp only
      rw [ih (acc ++ [s])]
      simp

/-- C4 counterexample: on the spec's own example the emitted lines carry a
`"* "` prefix (`f"* {name}: ..."`, lines 888-894), so the output is not
`["A: Updated from 1.0 to 1.1", "B: Newly Added (1.0)"]`. -/
theorem changelog_example_lines_counterexample :
    changelog [("A", RecEntry.mk (some "A") (some "1.0"))]
        [("A", Component.mk "A" "r" none "p" none
            (some (AssetInfo.mk "u" "1.1" (some 0) (some "")))),
         ("B", Component.mk "B" "r" none "p" none
            (some (AssetInfo.mk "u" "1.0" (some 0) (some ""))))] ≠
      ["A: Updated from 1.0 to 1.1", "B: Newly Added (1.0)"] := by decide

/-- C4 amended: the changelog visits each selected id in sorted order and
emits an Added line when the id is absent from the record, an Updated line
when its version differs, and no line when unchanged; afterwards each
recorded id absent from the selection yields a Removed line — each line
prefixed with `"* "` and naming the component's display name; in
particular the spec's example yields `["* A: Updated from 1.0 to 1.1",
"* B: Newly Added (1.0)"]` in that order. -/
theorem changelog_classification_and_example :
    (∀ (lastComponents : List (String × RecEntry)) (sel : Selection),
      changelog lastComponents sel =
        (sortPairs sel).filterMap (classifyLine lastComponents) ++
          (sortPairs lastComponents).filterMap (removedLine sel)) ∧
    changelog [("A", RecEntry.mk (some "A") (some "1.0"))]
        [("A", Component.mk "A" "r" none "p" none
            (some (AssetInfo.mk "u" "1.1" (some 0) (some "")))),
         ("B", Component.mk "B" "r" none "p" none
            (some (AssetInfo.mk "u" "1.0" (some 0) (some ""))))] =
      ["* A: Updated from 1.0 to 1.1", "* B: Newly Added (1.0)"] := by
  constructor
  · intro last sel
    unfold changelog
    have h1 : (fun (acc : List String) (p : String × Component) =>
        let currentVersion := versionOf p.2
        match last.lookup p.1 with
        | none => acc ++ ["* " ++ p.2.name ++ ": Newly Added (" ++ currentVersion ++ ")"]
        | some le =>
          if le.version ≠ some currentVersion then
            acc ++ ["* " ++ p.2.name ++ ": Updated from " ++ pyOptStr le.version ++
              " to " ++ currentVersion]
          else acc) =
        (fun acc p =>
          match classifyLine last p with
          | some s => acc ++ [s]
          | none => acc) := by
      funext acc p
      unfold classifyLine
      dsimp only
      cases h : last.lookup p.1 with
      | none => rfl
      | some le =>
        by_cases hv : le.version ≠ some (versionOf p.2)
        · simp only [if_pos hv]
        · simp only [if_neg hv]
    have h2 : (fun (acc : List String) (q : String × RecEntry) =>
        if (sel.lookup q.1).isNone then
          acc ++ ["* " ++ q.2.name.getD q.1 ++ ": Removed (was " ++
            pyOptStr q.2.version ++ ")"]
        else acc) =
        (fun acc q =>
          match removedLine sel q with
          | some s => acc ++ [s]
          | none => acc) := by
      funext acc q
      unfold removedLine
      by_cases hq : (sel.lookup q.1).isNone = true
      · simp only [if_pos hq]
      · simp only [if_neg hq]
    rw [h1, foldl_emit_eq_filterMap (classifyLine last) (sortPairs sel) []]
    rw [h2, foldl_emit_eq_filterMap (removedLine sel) (sortPairs last) _]
    simp
  · decide

/-! ### Build inclusion of unresolved components (`run_builder` 961-990) -/

/-- The download/processing gate at lines 964-965:
`if asset_info and asset_info.get("url"):` — a component with no
`asset_info` (or an empty URL) is skipped at this stage only. -/
def processGate (c : Component) : Bool :=
  match c.assetInfo with
  | some a => a.url != ""
  | none => false

/-- The `components` map written into the persisted build record
(lines 983-988): `{'name': data['name'], 'version':
data.get('asset_info', {}).get('version', 'N/A')}`. -/
def mkRecordComponents (sel : Selection) : List (String × RecEntry) :=
  sel.map (fun p => (p.1, ⟨some p.2.name, some (versionOf p.2)⟩))

/-- A successful association-list lookup means the key is among the
mapped-out keys. -/
theorem mem_keys_of_lookup {β : Type} {l : List (String × β)} {k : String} {v : β}
    (h : l.lookup k = some v) : k ∈ l.map Prod.fst := by
  induction l with
  | nil => simp [List.lookup] at h
  | cons p t ih =>
    rw [show List.lookup k (p :: t) =
        match k == p.1 with
        | true => some p.2
        | false => List.lookup k t from rfl] at h
    cases hk : k == p.1 with
    | true =>
      simp only [List.map_cons, List.mem_cons]
      exact Or.inl ((beq_iff_eq ..).mp hk)
    | false =>
      rw [hk] at h
      simp only [List.map_cons, List.mem_cons]
      exact Or.inr (ih h)

/-- Key-preserving value maps commute with lookup. -/
theorem lookup_map_value {β γ : Type} (f : String × β → γ) (l : List (String × β))
    (k : String) :
    (l.map (fun q => (q.1, f q))).lookup k = (l.lookup k).map (fun v => f (k, v)) := by
  induction l with
  | nil => rfl
  | cons p t ih =>
    have step1 : ((p :: t).map (fun q => (q.1, f q))).lookup k =
        (match k == p.1 with
         | true => some (f p)
         | false => (t.map (fun q => (q.1, f q))).lookup k) := rfl
    have step2 : (p :: t).lookup k =
        (match k == p.1 with
         | true => some p.2
         | false => t.lookup k) := rfl
    rw [step1, step2]
    cases hk : k == p.1 with
    | true =>
      dsimp only
      have hkp : k = p.1 := (beq_iff_eq ..).mp hk
      subst hkp
      rfl
    | false =>
      dsimp only
      exact ih

/-- C10: a selected component whose resolution failed (no `asset_info`)
still participates in the build under the placeholder version `"N/A"`:
the content hash covers the pair `(id, "N/A")`, the component is skipped
only at the download/processing gate, the persisted build record stores it
with version `"N/A"`, and a later successful resolution to a version
other than `"N/A"` is classified as Updated-from-N/A, not Newly Added. -/
theorem unresolved_component_na_placeholder
    (sel : Selection) (id : String) (c : Component)
    (record : List (String × RecEntry)) (re : RecEntry) (c2 : Component) (a : AssetInfo)
    (hlk : sel.lookup id = some c)
    (hnone : c.assetInfo = none)
    (hrec : record.lookup id = some re)
    (hrev : re.version = some "N/A")
    (hc2 : c2.assetInfo = some a)
    (hv : ¬ (a.version = "N/A")) :
    (id, "N/A") ∈ hashPairs sel ∧
    processGate c = false ∧
    (mkRecordComponents sel).lookup id = some ⟨some c.name, some "N/A"⟩ ∧
    (record.lookup id).isSome = true ∧
    classifyLine record (id, c2) =
      some ("* " ++ c2.name ++ ": Updated from " ++ "N/A" ++ " to " ++ a.version) := by
  have hver : versionOf c = "N/A" := by unfold versionOf; rw [hnone]
  refine ⟨?_, ?_, ?_, ?_, ?_⟩
  · have hidmem : id ∈ sel.map Prod.fst := mem_keys_of_lookup hlk
    have hsorted : id ∈ sortStrings (sel.map Prod.fst) :=
      (sortStrings_perm (sel.map Prod.fst)).mem_iff.mpr hidmem
    unfold hashPairs
    refine List.mem_map.mpr ⟨id, hsorted, ?_⟩
    unfold versionIn
    rw [hlk]
    dsimp only
    rw [hver]
  · unfold processGate
    rw [hnone]
  · unfold mkRecordComponents
    rw [lookup_map_value (fun p => RecEntry.mk (some p.2.name) (some (versionOf p.2)))
      sel id]
    rw [hlk]
    dsimp only [Option.map_some']
    rw [hver]
  · rw [hrec]; rfl
  · unfold classifyLine
    dsimp only
    have hcur : versionOf c2 = a.version := by unfold versionOf; rw [hc2]
    rw [hrec]
    dsimp only
    rw [hcur, hrev]
    rw [if_pos (by simp only [ne_eq, Option.some.injEq]; exact fun h => hv h.symm)]
    rfl

/-- Witness for C10 at a one-component selection whose resolution failed,
later resolved to version `"2.0"`. -/
theorem unresolved_component_na_placeholder_witness :
    ([("x", Component.mk "X" "r" none "p" none none)] : Selection).lookup "x" =
        some (Component.mk "X" "r" none "p" none none) ∧
    (Component.mk "X" "r" none "p" none none).assetInfo = none ∧
    ([("x", RecEntry.mk (some "X") (some "N/A"))] : List (String × RecEntry)).lookup "x" =
        some (RecEntry.mk (some "X") (some "N/A")) ∧
    (RecEntry.mk (some "X") (some "N/A")).version = some "N/A" ∧
    (Component.mk "X" "r" none "p" none
        (some (AssetInfo.mk "u" "2.0" (some 5) (some "")))).assetInfo =
      some (AssetInfo.mk "u" "2.0" (some 5) (some "")) ∧
    ¬ ((AssetInfo.mk "u" "2.0" (some 5) (some "")).version = "N/A") ∧
    (("x", "N/A") ∈ hashPairs [("x", Component.mk "X" "r" none "p" none none)] ∧
      processGate (Component.mk "X" "r" none "p" none none) = false ∧
      (mkRecordComponents [("x", Component.mk "X" "r" none "p" none none)]).lookup "x" =
        some ⟨some "X", some "N/A"⟩ ∧
      (([("x", RecEntry.mk (some "X") (some "N/A"))] :
          List (String × RecEntry)).lookup "x").isSome = true ∧
      classifyLine [("x", RecEntry.mk (some "X") (some "N/A"))]
          ("x", Component.mk "X" "r" none "p" none
            (some (AssetInfo.mk "u" "2.0" (some 5) (some "")))) =
        some ("* " ++ "X" ++ ": Updated from " ++ "N/A" ++ " to " ++ "2.0")) :=
  ⟨by decide, rfl, by decide, rfl, rfl, by decide,
   unresolved_component_na_placeholder
     [("x", Component.mk "X" "r" none "p" none none)] "x"
     (Component.mk "X" "r" none "p" none none)
     [("x", RecEntry.mk (some "X") (some "N/A"))]
     (RecEntry.mk (some "X") (some "N/A"))
     (Component.mk "X" "r" none "p" none
       (some (AssetInfo.mk "u" "2.0" (some 5) (some ""))))
     (AssetInfo.mk "u" "2.0" (some 5) (some ""))
     (by decide) rfl (by decide) rfl rfl (by decide)⟩

/-! ### Archive search steps (`process_component`, hatskit.py 328-353)

A zip member is modelled by its stored name and bytes; `ZipInfo.is_dir()`
is "the stored name ends with `/`", and `os.path.basename` (POSIX) is the
part after the last slash.  The two search loops differ in exactly one
conjunct: `find_and_copy` (line 334) tests
`fnmatch(basename, pattern) and not member.is_dir()`, while
`find_and_rename` (line 349) tests only `fnmatch(basename, pattern)`.
A write is modelled as the produced (directory, filename, bytes). -/

structure ZipEntry where
  filename : String
  data : List Nat
deriving Repr, DecidableEq

/-- `ZipInfo.is_dir()`: the stored filename ends with a slash. -/
def isDirEntry (e : ZipEntry) : Bool := e.filename.data.getLast? = some '/'

/-- POSIX `os.path.basename`: the part after the last `/`. -/
def basename (s : String) : String :=
  String.mk ((s.data.reverse.takeWhile (fun ch => ch != '/')).reverse)

/-- The member selected by `find_and_copy`'s loop: first entry whose
basename matches the glob and which is not a directory entry. -/
def facSelect (pattern : String) (entries : List ZipEntry) : Option ZipEntry :=
  entries.find? (fun m => fnmatchB (basename m.filename) pattern && !(isDirEntry m))

/-- The member selected by `find_and_rename`'s loop: first entry whose
basename matches the glob (directory entries are not skipped). -/
def farSelect (pattern : String) (entries : List ZipEntry) : Option ZipEntry :=
  entries.find? (fun m => fnmatchB (basename m.filename) pattern)

structure FileWrite where
  dir : String
  filename : String
  data : List Nat
deriving Repr, DecidableEq

/-- Effect of the `find_and_copy` step: the matched member's bytes written
under its original basename into the target folder. -/
def find_and_copy (pattern targetPath : String) (entries : List ZipEntry) :
    Option FileWrite :=
  (facSelect pattern entries).map (fun m => ⟨targetPath, basename m.filename, m.data⟩)

/-- Effect of the `find_and_rename` step: the matched member's bytes
written under the explicit target filename. -/
def find_and_rename (pattern targetFilename targetPath : String)
    (entries : List ZipEntry) : Option FileWrite :=
  (farSelect pattern entries).map (fun m => ⟨targetPath, targetFilename, m.data⟩)

/-- C6 counterexample: the two searches are not the same.  On an archive
whose first entry is the directory `d/` (whose basename `""` matches the
glob `*`), `find_and_rename` selects the directory entry while
`find_and_copy` skips it and selects `a.txt`. -/
theorem find_and_rename_search_differs_counterexample :
    farSelect "*" [ZipEntry.mk "d/" [], ZipEntry.mk "a.txt" [1]] =
        some (ZipEntry.mk "d/" []) ∧
    facSelect "*" [ZipEntry.mk "d/" [], ZipEntry.mk "a.txt" [1]] =
        some (ZipEntry.mk "a.txt" [1]) ∧
    isDirEntry (ZipEntry.mk "d/" []) = true ∧
    find_and_rename "*" "out.bin" "t" [ZipEntry.mk "d/" [], ZipEntry.mk "a.txt" [1]] =
        some (FileWrite.mk "t" "out.bin" []) ∧
    find_and_copy "*" "t" [ZipEntry.mk "d/" [], ZipEntry.mk "a.txt" [1]] =
        some (FileWrite.mk "t" "a.txt" [1]) := by
  refine ⟨by decide, by decide, by decide, by decide, by decide⟩

/-- C6 amended: `find_and_rename` scans the archive's entries in archive
order for the first whose base filename matches the glob, stopping at the
first match, and writes that entry's bytes under the explicit target
filename — but unlike `find_and_copy` it does not skip directory entries;
the two searches coincide whenever no directory entry's basename matches
the glob. -/
theorem find_and_rename_search_behavior (pattern targetFilename targetPath : String)
    (entries : List ZipEntry) :
    find_and_rename pattern targetFilename targetPath entries =
      (farSelect pattern entries).map
        (fun m => FileWrite.mk targetPath targetFilename m.data) ∧
    ((∀ m ∈ entries, isDirEntry m = true → fnmatchB (basename m.filename) pattern = false) →
      farSelect pattern entries = facSelect pattern entries) := by
  refine ⟨rfl, ?_⟩
  induction entries with
  | nil => intro _; rfl
  | cons m t ih =>
    intro hno
    have ih' := ih (fun x hx hdx => hno x (List.mem_cons_of_mem m hx) hdx)
    unfold farSelect facSelect at ih' ⊢
    rw [List.find?_cons, List.find?_cons]
    by_cases hd : isDirEntry m = true
    · have hm : fnmatchB (basename m.filename) pattern = false :=
        hno m (List.mem_cons_self m t) hd
      rw [hm, hd]
      simpa using ih'
    · have hd' : isDirEntry m = false := by
        revert hd; cases isDirEntry m <;> simp
      rw [hd']
      cases hm : fnmatchB (basename m.filename) pattern
      · simpa using ih'
      · rfl

/-- Witness for the amended C6 at an archive with no directory entries. -/
theorem find_and_rename_search_behavior_witness :
    (∀ m ∈ [ZipEntry.mk "x/f.nro" [7], ZipEntry.mk "g.nro" [8]],
      isDirEntry m = true → fnmatchB (basename m.filename) "*.nro" = false) ∧
    find_and_rename "*.nro" "payload.bin" "t"
        [ZipEntry.mk "x/f.nro" [7], ZipEntry.mk "g.nro" [8]] =
      (farSelect "*.nro" [ZipEntry.mk "x/f.nro" [7], ZipEntry.mk "g.nro" [8]]).map
        (fun m => FileWrite.mk "t" "payload.bin" m.data) ∧
    farSelect "*.nro" [ZipEntry.mk "x/f.nro" [7], ZipEntry.mk "g.nro" [8]] =
      facSelect "*.nro" [ZipEntry.mk "x/f.nro" [7], ZipEntry.mk "g.nro" [8]] :=
  ⟨by decide,
   (find_and_rename_search_behavior "*.nro" "payload.bin" "t"
     [ZipEntry.mk "x/f.nro" [7], ZipEntry.mk "g.nro" [8]]).1,
   (find_and_rename_search_behavior "*.nro" "payload.bin" "t"
     [ZipEntry.mk "x/f.nro" [7], ZipEntry.mk "g.nro" [8]]).2 (by decide)⟩

/-! ### Download request construction (`download_file`, hatskit.py 281-287)

The function builds `headers = {}` and adds `Authorization` plus
`Accept: application/octet-stream` exactly when `token` is truthy and the
literal substring `"github.com"` occurs anywhere in the URL (Python
`"github.com" in url`) — this is a substring test on the whole URL, not a
check of the URL's host.  The observable request is the URL with its
headers. -/

/-- Substring containment on character lists (Python `pat in s`). -/
def hasSubstr (pat : List Char) : List Char → Bool
  | [] => pat.isEmpty
  | c :: cs => pat.isPrefixOf (c :: cs) || hasSubstr pat cs

/-- Truthiness of the optional PAT string. -/
def tokenTruthy : Option String → Bool
  | some t => t != ""
  | none => false

structure DownloadReq where
  url : String
  headers : List (String × String)
deriving Repr, DecidableEq

/-- The request sent by `download_file(url, download_path, token)`. -/
def download_request (url : String) (token : Option String) : DownloadReq :=
  if tokenTruthy token && hasSubstr "github.com".data url.data then
    ⟨url, [("Authorization", "token " ++ token.getD ""),
           ("Accept", "application/octet-stream")]⟩
  else ⟨url, []⟩

/-- Scheme-prefix removal for host extraction. -/
def dropScheme : List Char → List Char
  | ':' :: '/' :: '/' :: rest => rest
  | _ :: rest => dropScheme rest
  | [] => []

/-- Modelled from the spec: "the URL's host" — the authority component
between the scheme separator and the first `/`, `?`, `#` or `:`.  Used
only to compare the code's substring criterion against the spec's
host-based criterion. -/
def urlHost (u : String) : String :=
  String.mk ((dropScheme u.data).takeWhile
    (fun ch => ch != '/' && ch != '?' && ch != '#' && ch != ':'))

/-- C7 counterexample: for a URL whose host is `evil.example` (not the
release API's domain) but whose path contains `github.com`, the request
differs depending on whether a token is configured — the bearer token is
attached and disclosed to a non-GitHub host. -/
theorem download_token_host_counterexample :
    urlHost "https://evil.example/github.com/a" = "evil.example" ∧
    urlHost "https://evil.example/github.com/a" ≠ "api.github.com" ∧
    urlHost "https://evil.example/github.com/a" ≠ "github.com" ∧
    download_request "https://evil.example/github.com/a" (some "SECRET") ≠
      download_request "https://evil.example/github.com/a" none ∧
    (download_request "https://evil.example/github.com/a" (some "SECRET")).headers =
      [("Authorization", "token SECRET"), ("Accept", "application/octet-stream")] := by
  refine ⟨by decide, by decide, by decide, by decide, by decide⟩

/-- C7 amended: the token is attached exactly when the literal substring
`"github.com"` occurs in the URL; for every URL without that substring the
request is identical with or without a configured token, so the token can
only be disclosed to hosts reachable through a URL containing
`"github.com"` somewhere — which includes non-GitHub hosts (see the
counterexample). -/
theorem download_token_substring_criterion (url : String) (token : String) :
    (hasSubstr "github.com".data url.data = false →
      download_request url (some token) = download_request url none) ∧
    (hasSubstr "github.com".data url.data = true → token ≠ "" →
      (download_request url (some token)).headers =
        [("Authorization", "token " ++ token),
         ("Accept", "application/octet-stream")]) := by
  constructor
  · intro h
    unfold download_request
    rw [show tokenTruthy none = false from rfl]
    simp [h]
  · intro h ht
    unfold download_request
    have htt : tokenTruthy (some token) = true := by
      unfold tokenTruthy
      simpa using ht
    rw [htt, h]
    rfl

/-- Witness for the amended C7: a non-GitHub URL gets no token either way;
a GitHub URL gets the bearer header. -/
theorem download_token_substring_criterion_witness :
    (hasSubstr "github.com".data "https://example.org/x.zip".data = false ∧
      download_request "https://example.org/x.zip" (some "SECRET") =
        download_request "https://example.org/x.zip" none) ∧
    (hasSubstr "github.com".data "https://github.com/o/r/releases/x.zip".data = true ∧
      ("SECRET" : String) ≠ "" ∧
      (download_request "https://github.com/o/r/releases/x.zip" (some "SECRET")).headers =
        [("Authorization", "token " ++ "SECRET"),
         ("Accept", "application/octet-stream")]) :=
  ⟨⟨by decide,
    (download_token_substring_criterion "https://example.org/x.zip" "SECRET").1
      (by decide)⟩,
   ⟨by decide, by decide,
    (download_token_substring_criterion "https://github.com/o/r/releases/x.zip"
        "SECRET").2 (by decide) (by decide)⟩⟩
